import Mathlib

/-!
Verification of the token-amount conversion and formatting utilities
described in `src/utilities/` (`convertWeiToTokens.ts`,
`convertTokensToWei.ts`, `shortenValueWithSuffix/index.ts`,
`formatTokensToReadableValue/index.ts`).

Finite BigNumber.js values are modelled as exact rationals (`ℚ`).
`BigNumber.prototype.dp` (alias `decimalPlaces`) with the library's
default rounding mode `ROUND_HALF_UP` (round to the nearest neighbour,
ties away from zero) is modelled by `dp`.  `toFormat` output (decimal
point `.`, group separator `,`, group size 3) is modelled by `renderTrim`
(no argument: no trailing fractional zeros) and `renderFixed2`
(argument 2: exactly two fractional digits).
-/

/-- Rounding of a rational to the nearest integer with ties away from zero,
the behaviour of BigNumber.js `ROUND_HALF_UP` at zero decimal places. -/
def roundHalfAwayFromZero (x : ℚ) : ℤ :=
  if 0 ≤ x then ⌊x + 1/2⌋ else -⌊-x + 1/2⌋

/-- Model of `BigNumber.prototype.dp(n)` (alias `decimalPlaces(n)`) with the
default rounding mode: round to `n` decimal places, half away from zero. -/
def dp (n : ℕ) (q : ℚ) : ℚ :=
  (roundHalfAwayFromZero (q * 10 ^ n) : ℚ) / 10 ^ n

/-- Fields of the `Token` / `VToken` types of `@/types` that the utilities
under verification read. -/
structure Token where
  symbol : String
  decimals : ℕ

/-- Model of `convertWeiToTokens` (`src/utilities/convertWeiToTokens.ts`):
`valueWei.dividedBy(new BigNumber(10).pow(token.decimals)).decimalPlaces(token.decimals)`. -/
def convertWeiToTokens (valueWei : ℚ) (token : Token) : ℚ :=
  dp token.decimals (valueWei / 10 ^ token.decimals)

/-- Model of `convertTokensToWei` (`src/utilities/convertTokensToWei.ts`):
`value.multipliedBy(new BigNumber(10).pow(token.decimals)).dp(0)`. -/
def convertTokensToWei (value : ℚ) (token : Token) : ℚ :=
  dp 0 (value * 10 ^ token.decimals)

/-- Error kind named by the specification's error taxonomy for
`humanToRaw`; the source code never produces it. -/
inductive ConversionError where
  | invalidAmount

/-- Model of `convertTokensToWei` with its failure behaviour made explicit:
the body of the source function contains no `throw`, so every input is
mapped to a normal (`ok`) return. -/
def convertTokensToWeiChecked (value : ℚ) (token : Token) : Except ConversionError ℚ :=
  Except.ok (convertTokensToWei value token)

/-- Decimal digits of a natural number, least significant first (empty for
zero); the first argument is structural fuel, always called with `n` itself,
which bounds the number of divisions by ten. -/
def natDigitsAux : ℕ → ℕ → List ℕ
  | 0, _ => []
  | _ + 1, 0 => []
  | fuel + 1, n + 1 => ((n + 1) % 10) :: natDigitsAux fuel ((n + 1) / 10)

/-- Insertion of the `,` group separator of `toFormat` every three digits
into a least-significant-first digit-character list; `k` counts digits
emitted since the last separator. -/
def groupRev : List Char → ℕ → List Char
  | [], _ => []
  | [c], _ => [c]
  | c :: c2 :: rest, k =>
    if k = 2 then c :: ',' :: groupRev (c2 :: rest) 0
    else c :: groupRev (c2 :: rest) (k + 1)

/-- Decimal rendering of a natural number with the `,` thousands separators
that `toFormat` applies to the integer portion. -/
def natGrouped (n : ℕ) : String :=
  if n = 0 then "0"
  else String.mk (groupRev ((natDigitsAux n n).map Nat.digitChar) 0).reverse

/-- Two-digit zero-padded rendering of a natural number below one hundred. -/
def pad2 (f : ℕ) : String :=
  String.mk [Nat.digitChar (f / 10), Nat.digitChar (f % 10)]

/-- Rendering of the hundredths mantissa `n` (the value times 100) with
exactly two fractional digits, as produced by `toFormat(2)`. -/
def renderFixed2 (n : ℤ) : String :=
  (if n < 0 then "-" else "") ++ natGrouped (n.natAbs / 100) ++ "." ++ pad2 (n.natAbs % 100)

/-- Rendering of the hundredths mantissa `n` (the value times 100) with
trailing fractional zeros removed, as produced by a no-argument `toFormat`
on a value that has at most two decimal places. -/
def renderTrim (n : ℤ) : String :=
  if n.natAbs % 100 = 0 then
    (if n < 0 then "-" else "") ++ natGrouped (n.natAbs / 100)
  else if n.natAbs % 100 % 10 = 0 then
    (if n < 0 then "-" else "") ++ natGrouped (n.natAbs / 100) ++ "." ++
      String.mk [Nat.digitChar (n.natAbs % 100 / 10)]
  else
    (if n < 0 then "-" else "") ++ natGrouped (n.natAbs / 100) ++ "." ++ pad2 (n.natAbs % 100)

/-- Model of `BigNumber.prototype.toFormat(2)`: round to two decimal places
(half away from zero) and render with exactly two fractional digits and
group separators. -/
def toFormat2 (q : ℚ) : String :=
  renderFixed2 (roundHalfAwayFromZero (q * 100))

/-- Model of a no-argument `BigNumber.prototype.toFormat` applied to a value
that already has at most two decimal places (every call site in the source
applies it to a `.dp(2)` result, for which the mantissa extraction below is
exact): render with group separators and no trailing fractional zeros. -/
def toFormatTrimmed (q : ℚ) : String :=
  renderTrim (roundHalfAwayFromZero (q * 100))

/-- Model of `shortenValueWithSuffix` (`src/utilities/shortenValueWithSuffix/index.ts`):
branch on magnitude, divide by the branch scale, round to two decimal
places, render, and append the `B` / `M` / `K` suffix; values below one
thousand are rendered by `toFormat(2)`. -/
def shortenValueWithSuffix (value : ℚ) : String :=
  if 1000000000 ≤ value then toFormatTrimmed (dp 2 (value / 1000000000)) ++ "B"
  else if 1000000 ≤ value then toFormatTrimmed (dp 2 (value / 1000000)) ++ "M"
  else if 1000 ≤ value then toFormatTrimmed (dp 2 (value / 1000)) ++ "K"
  else toFormat2 value

/-- Model of `formatTokensToReadableValue`
(`src/utilities/formatTokensToReadableValue/index.ts`): values whose
absolute value is nonzero and below `0.000001` yield the sentinel string;
otherwise the absolute value is shortened, a minus sign is prepended for
negative inputs, and the symbol is appended when requested. -/
def formatTokensToReadableValue (value : ℚ) (token : Token) (addSymbol : Bool) : String :=
  if |value| < 1/1000000 ∧ value ≠ 0 then
    "< 0.000001" ++ (if addSymbol then " " ++ token.symbol else "")
  else
    (if value < 0 then "-" else "") ++ shortenValueWithSuffix |value| ++
      (if addSymbol then " " ++ token.symbol else "")

lemma floor_half_add_int (m : ℤ) : ⌊(1/2 : ℚ) + (m : ℚ)⌋ = m := by
  rw [Int.floor_add_int]
  have h0 : ⌊(1/2 : ℚ)⌋ = 0 := by
    rw [Int.floor_eq_iff] <;> norm_num
  rw [h0, zero_add]

lemma roundHAZ_intCast (m : ℤ) : roundHalfAwayFromZero (m : ℚ) = m := by
  rw [roundHalfAwayFromZero]
  rcases le_or_lt 0 (m : ℚ) with h | h
  · rw [if_pos h, show ((m : ℚ) + 1/2) = (1/2 : ℚ) + (m : ℚ) by ring, floor_half_add_int]
  · rw [if_neg (not_le.mpr h),
      show (-(m : ℚ) + 1/2) = (1/2 : ℚ) + ((-m : ℤ) : ℚ) by push_cast; ring,
      floor_half_add_int, neg_neg]

lemma roundHAZ_ofRat_eq_int (x : ℚ) (m : ℤ) (h : x = (m : ℚ)) :
    roundHalfAwayFromZero x = m := by
  rw [h, roundHAZ_intCast]

lemma dp_eq_of_mul_int (n : ℕ) (q : ℚ) (m : ℤ) (h : q * 10 ^ n = (m : ℚ)) :
    dp n q = q := by
  have h10 : ((10 : ℚ) ^ n) ≠ 0 := pow_ne_zero _ (by norm_num)
  rw [dp, roundHAZ_ofRat_eq_int _ m h, ← h, mul_div_assoc, div_self h10, mul_one]

lemma convertTokensToWei_eq (x : ℚ) (t : Token) :
    convertTokensToWei x t = (roundHalfAwayFromZero (x * 10 ^ t.decimals) : ℚ) := by
  rw [convertTokensToWei, dp, pow_zero, mul_one, div_one]

/-- C1: for every non-negative integer raw amount and decimals in [0, 18],
converting raw to human (`convertWeiToTokens`) and back
(`convertTokensToWei`) is the identity. -/
theorem convert_round_trip (r : ℕ) (t : Token) (hd : t.decimals ≤ 18) :
    convertTokensToWei (convertWeiToTokens (r : ℚ) t) t = (r : ℚ) := by
  have h10 : ((10 : ℚ) ^ t.decimals) ≠ 0 := pow_ne_zero _ (by norm_num)
  have h1 : convertWeiToTokens (r : ℚ) t = (r : ℚ) / 10 ^ t.decimals := by
    rw [convertWeiToTokens]
    refine dp_eq_of_mul_int _ _ (r : ℤ) ?_
    rw [div_mul_cancel₀ _ h10]
    push_cast
    ring
  rw [h1, convertTokensToWei, div_mul_cancel₀ _ h10, dp, pow_zero, mul_one, div_one,
    roundHAZ_ofRat_eq_int _ (r : ℤ) (by push_cast; ring)]
  push_cast
  ring

/-- Witness for C1 at raw amount 10500000 and six decimals. -/
theorem convert_round_trip_witness :
    convertTokensToWei (convertWeiToTokens ((10500000 : ℕ) : ℚ) ⟨"USDC", 6⟩) ⟨"USDC", 6⟩ =
      ((10500000 : ℕ) : ℚ) :=
  convert_round_trip 10500000 ⟨"USDC", 6⟩ (by norm_num)

lemma roundHAZ_sub_le_half (x : ℚ) :
    |(roundHalfAwayFromZero x : ℚ) - x| ≤ 1/2 := by
  rw [roundHalfAwayFromZero]
  rcases le_or_lt 0 x with hx | hx
  · rw [if_pos hx]
    have h1 : ((⌊x + 1/2⌋ : ℤ) : ℚ) ≤ x + 1/2 := Int.floor_le _
    have h2 : x + 1/2 - 1 < ((⌊x + 1/2⌋ : ℤ) : ℚ) := Int.sub_one_lt_floor _
    rw [abs_le]
    constructor <;> linarith
  · rw [if_neg (not_le.mpr hx)]
    have h1 : ((⌊-x + 1/2⌋ : ℤ) : ℚ) ≤ -x + 1/2 := Int.floor_le _
    have h2 : -x + 1/2 - 1 < ((⌊-x + 1/2⌋ : ℤ) : ℚ) := Int.sub_one_lt_floor _
    rw [abs_le]
    push_cast
    constructor <;> linarith

lemma roundHAZ_nearest (x : ℚ) (m : ℤ) :
    |(roundHalfAwayFromZero x : ℚ) - x| ≤ |(m : ℚ) - x| := by
  by_cases hm : m = roundHalfAwayFromZero x
  · rw [hm]
  · have h1 := roundHAZ_sub_le_half x
    have h2 : (1 : ℚ) ≤ |(m : ℚ) - (roundHalfAwayFromZero x : ℚ)| := by
      rw [show ((m : ℚ) - (roundHalfAwayFromZero x : ℚ)) =
          ((m - roundHalfAwayFromZero x : ℤ) : ℚ) by push_cast; ring, ← Int.cast_abs]
      exact_mod_cast Int.one_le_abs (sub_ne_zero.mpr hm)
    have h3 := abs_sub_le ((m : ℚ)) x ((roundHalfAwayFromZero x : ℚ))
    have h4 : |x - (roundHalfAwayFromZero x : ℚ)| = |(roundHalfAwayFromZero x : ℚ) - x| :=
      abs_sub_comm _ _
    linarith

/-- C4: `convertWeiToTokens` computes exactly `r / 10 ^ decimals` for every
integer raw amount, with no precision loss; in particular it is the identity
for zero decimals, maps zero to zero, and maps 10500000 at six decimals to
10.5. -/
theorem convertWeiToTokens_exact (r : ℤ) (t : Token) :
    convertWeiToTokens (r : ℚ) t = (r : ℚ) / 10 ^ t.decimals ∧
    convertWeiToTokens (r : ℚ) ⟨t.symbol, 0⟩ = (r : ℚ) ∧
    convertWeiToTokens 0 t = 0 ∧
    convertWeiToTokens 10500000 ⟨"USDC", 6⟩ = 10.5 := by
  have key : ∀ (s : ℤ) (u : Token), convertWeiToTokens (s : ℚ) u = (s : ℚ) / 10 ^ u.decimals := by
    intro s u
    have h10 : ((10 : ℚ) ^ u.decimals) ≠ 0 := pow_ne_zero _ (by norm_num)
    rw [convertWeiToTokens]
    exact dp_eq_of_mul_int _ _ s (by rw [div_mul_cancel₀ _ h10])
  refine ⟨key r t, ?_, ?_, ?_⟩
  · rw [key r ⟨t.symbol, 0⟩]
    norm_num
  · rw [show (0 : ℚ) = ((0 : ℤ) : ℚ) by norm_num, key 0 t]
    norm_num
  · rw [show (10500000 : ℚ) = ((10500000 : ℤ) : ℚ) by norm_num, key 10500000 ⟨"USDC", 6⟩]
    norm_num

/-- C5: `convertTokensToWei` returns the integer nearest to
`h * 10 ^ decimals` (always an integer, within one half of the scaled value,
and at least as close as any other integer); in particular 75.5 at six
decimals yields 75500000. -/
theorem convertTokensToWei_nearest (x : ℚ) (t : Token) :
    (∃ n : ℤ, convertTokensToWei x t = (n : ℚ)) ∧
    |convertTokensToWei x t - x * 10 ^ t.decimals| ≤ 1/2 ∧
    (∀ m : ℤ, |convertTokensToWei x t - x * 10 ^ t.decimals| ≤
      |(m : ℚ) - x * 10 ^ t.decimals|) ∧
    convertTokensToWei (75.5 : ℚ) ⟨"USDC", 6⟩ = 75500000 := by
  refine ⟨⟨roundHalfAwayFromZero (x * 10 ^ t.decimals), convertTokensToWei_eq x t⟩, ?_, ?_, ?_⟩
  · rw [convertTokensToWei_eq]
    exact roundHAZ_sub_le_half _
  · intro m
    rw [convertTokensToWei_eq]
    exact roundHAZ_nearest _ m
  · rw [convertTokensToWei_eq,
      roundHAZ_ofRat_eq_int _ 75500000 (by norm_num [show (Token.mk "USDC" 6).decimals = 6 from rfl])]
    norm_num

/-- C9: `convertTokensToWei` pins ties to round half away from zero: an
input whose scaled value has fractional part exactly one half rounds away
from zero in both signs, and 0.0000005 at six decimals yields 1. -/
theorem convertTokensToWei_ties_away (n : ℕ) (t : Token) :
    convertTokensToWei (((n : ℚ) + 1/2) / 10 ^ t.decimals) t = (n : ℚ) + 1 ∧
    convertTokensToWei (-(((n : ℚ) + 1/2) / 10 ^ t.decimals)) t = -((n : ℚ) + 1) ∧
    convertTokensToWei (5/10000000 : ℚ) ⟨"USDC", 6⟩ = 1 := by
  have h10 : ((10 : ℚ) ^ t.decimals) ≠ 0 := pow_ne_zero _ (by norm_num)
  have hn : (0 : ℚ) ≤ (n : ℚ) + 1/2 := by positivity
  have hfloor : ⌊(n : ℚ) + 1/2 + 1/2⌋ = (n : ℤ) + 1 := by
    rw [show ((n : ℚ) + 1/2 + 1/2) = (((n : ℤ) + 1 : ℤ) : ℚ) by push_cast; ring,
      Int.floor_intCast]
  refine ⟨?_, ?_, ?_⟩
  · rw [convertTokensToWei_eq, div_mul_cancel₀ _ h10, roundHalfAwayFromZero, if_pos hn, hfloor]
    push_cast
    ring
  · rw [convertTokensToWei_eq, show (-(((n : ℚ) + 1/2) / 10 ^ t.decimals)) * 10 ^ t.decimals =
      -(((n : ℚ) + 1/2)) by rw [neg_mul, div_mul_cancel₀ _ h10],
      roundHalfAwayFromZero, if_neg (by push_cast; intro hc; linarith), neg_neg, hfloor]
    push_cast
    ring
  · rw [convertTokensToWei_eq,
      show ((5/10000000 : ℚ) * 10 ^ (Token.mk "USDC" 6).decimals) = 1/2 by norm_num,
      roundHalfAwayFromZero, if_pos (by norm_num),
      show ((1/2 : ℚ) + 1/2) = ((1 : ℤ) : ℚ) by norm_num, Int.floor_intCast]
    norm_num

/-- C3 counterexample: a negative, finite, perfectly parseable input on
which `convertTokensToWei` returns normally instead of failing with an
`InvalidAmount` error, refuting the claimed failure condition. -/
theorem convertTokensToWei_no_failure_on_negative :
    convertTokensToWeiChecked (-1) ⟨"USDC", 6⟩ = Except.ok (-1000000) ∧
    ¬ ∃ e : ConversionError, convertTokensToWeiChecked (-1) ⟨"USDC", 6⟩ = Except.error e := by
  constructor
  · rw [convertTokensToWeiChecked, convertTokensToWei_eq,
      roundHAZ_ofRat_eq_int _ (-1000000) (by norm_num [show (Token.mk "USDC" 6).decimals = 6 from rfl])]
    norm_num
  · rintro ⟨e, he⟩
    rw [convertTokensToWeiChecked] at he
    exact Except.noConfusion he

/-- C3 amended: `convertTokensToWei` never fails: every finite decimal
input, negative ones included, produces a normal return carrying an
integer-valued result; no `InvalidAmount` error path exists in the code. -/
theorem convertTokensToWei_total_ok (x : ℚ) (t : Token) :
    ∃ r : ℚ, convertTokensToWeiChecked x t = Except.ok r ∧ ∃ n : ℤ, r = (n : ℚ) := by
  exact ⟨convertTokensToWei x t, rfl,
    roundHalfAwayFromZero (x * 10 ^ t.decimals), convertTokensToWei_eq x t⟩

lemma toFormatTrimmed_dp2 (u : ℚ) :
    toFormatTrimmed (dp 2 u) = renderTrim (roundHalfAwayFromZero (u * 100)) := by
  have h100 : ((10 : ℚ) ^ (2 : ℕ)) = 100 := by norm_num
  rw [toFormatTrimmed, dp, h100, div_mul_cancel₀ _ (show (100 : ℚ) ≠ 0 by norm_num),
    roundHAZ_intCast]

lemma shorten_eq_big (v : ℚ) (h : 1000000000 ≤ v) :
    shortenValueWithSuffix v =
      renderTrim (roundHalfAwayFromZero (v / 1000000000 * 100)) ++ "B" := by
  rw [shortenValueWithSuffix, if_pos h, toFormatTrimmed_dp2]

lemma shorten_eq_mid (v : ℚ) (h1 : v < 1000000000) (h2 : 1000000 ≤ v) :
    shortenValueWithSuffix v =
      renderTrim (roundHalfAwayFromZero (v / 1000000 * 100)) ++ "M" := by
  rw [shortenValueWithSuffix, if_neg (not_le.mpr h1), if_pos h2, toFormatTrimmed_dp2]

lemma shorten_eq_kilo (v : ℚ) (h1 : v < 1000000) (h2 : 1000 ≤ v) :
    shortenValueWithSuffix v =
      renderTrim (roundHalfAwayFromZero (v / 1000 * 100)) ++ "K" := by
  rw [shortenValueWithSuffix, if_neg (not_le.mpr (by linarith)), if_neg (not_le.mpr h1),
    if_pos h2, toFormatTrimmed_dp2]

lemma shorten_eq_small (v : ℚ) (h1 : v < 1000) :
    shortenValueWithSuffix v = toFormat2 v := by
  rw [shortenValueWithSuffix, if_neg (not_le.mpr (by linarith)),
    if_neg (not_le.mpr (by linarith)), if_neg (not_le.mpr h1)]

lemma roundHAZ_eval_pos (x : ℚ) (m : ℤ) (h1 : 0 ≤ x) (h2 : (m : ℚ) ≤ x + 1/2)
    (h3 : x + 1/2 < (m : ℚ) + 1) : roundHalfAwayFromZero x = m := by
  rw [roundHalfAwayFromZero, if_pos h1]
  exact Int.floor_eq_iff.mpr ⟨h2, by push_cast; linarith⟩

lemma shorten_val_zero : shortenValueWithSuffix 0 = "0.00" := by
  rw [shorten_eq_small 0 (by norm_num), toFormat2, roundHAZ_ofRat_eq_int _ 0 (by norm_num)]
  decide

lemma shorten_val_5 : shortenValueWithSuffix 5 = "5.00" := by
  rw [shorten_eq_small 5 (by norm_num), toFormat2, roundHAZ_ofRat_eq_int _ 500 (by norm_num)]
  decide

lemma shorten_val_999 : shortenValueWithSuffix 999 = "999.00" := by
  rw [shorten_eq_small 999 (by norm_num), toFormat2,
    roundHAZ_ofRat_eq_int _ 99900 (by norm_num)]
  decide

lemma shorten_val_1000 : shortenValueWithSuffix 1000 = "1K" := by
  rw [shorten_eq_kilo 1000 (by norm_num) (by norm_num),
    roundHAZ_ofRat_eq_int _ 100 (by norm_num)]
  decide

lemma shorten_val_999999 : shortenValueWithSuffix 999999 = "1,000K" := by
  rw [shorten_eq_kilo 999999 (by norm_num) (by norm_num),
    roundHAZ_eval_pos ((999999 : ℚ) / 1000 * 100) 100000 (by norm_num) (by norm_num)
      (by norm_num)]
  decide

lemma shorten_val_1000000 : shortenValueWithSuffix 1000000 = "1M" := by
  rw [shorten_eq_mid 1000000 (by norm_num) (by norm_num),
    roundHAZ_ofRat_eq_int _ 100 (by norm_num)]
  decide

lemma shorten_val_1500000 : shortenValueWithSuffix 1500000 = "1.5M" := by
  rw [shorten_eq_mid 1500000 (by norm_num) (by norm_num),
    roundHAZ_ofRat_eq_int _ 150 (by norm_num)]
  decide

lemma shorten_val_1000000000 : shortenValueWithSuffix 1000000000 = "1B" := by
  rw [shorten_eq_big 1000000000 (by norm_num), roundHAZ_ofRat_eq_int _ 100 (by norm_num)]
  decide

lemma shorten_val_1500000000 : shortenValueWithSuffix 1500000000 = "1.5B" := by
  rw [shorten_eq_big 1500000000 (by norm_num), roundHAZ_ofRat_eq_int _ 150 (by norm_num)]
  decide

/-- C2 counterexample: at the exact boundary 1000 the formatter returns
"1K", not the pinned "1.00K" (the source renders the suffixed branches with
a no-argument `toFormat`, which drops trailing fractional zeros). -/
theorem shorten_boundary_counterexample :
    shortenValueWithSuffix 1000 = "1K" ∧ shortenValueWithSuffix 1000 ≠ "1.00K" := by
  refine ⟨shorten_val_1000, ?_⟩
  rw [shorten_val_1000]
  decide

/-- C2 amended: branch selection by magnitude is as claimed, each suffixed
branch divides by its scale and rounds half away from zero at two decimal
places, but the suffixed branches render without trailing-zero padding (and
with thousands separators), so the boundary outputs are "999.00", "1K",
"1,000K", "1.5M" and "1.5B". -/
theorem shorten_branches_amended (h : ℚ) (hh : 0 ≤ h) :
    (1000000000 ≤ h → shortenValueWithSuffix h =
      renderTrim (roundHalfAwayFromZero (h / 1000000000 * 100)) ++ "B") ∧
    (1000000 ≤ h → h < 1000000000 → shortenValueWithSuffix h =
      renderTrim (roundHalfAwayFromZero (h / 1000000 * 100)) ++ "M") ∧
    (1000 ≤ h → h < 1000000 → shortenValueWithSuffix h =
      renderTrim (roundHalfAwayFromZero (h / 1000 * 100)) ++ "K") ∧
    (h < 1000 → shortenValueWithSuffix h = toFormat2 h) ∧
    shortenValueWithSuffix 999 = "999.00" ∧
    shortenValueWithSuffix 1000 = "1K" ∧
    shortenValueWithSuffix 999999 = "1,000K" ∧
    shortenValueWithSuffix 1500000 = "1.5M" ∧
    shortenValueWithSuffix 1500000000 = "1.5B" :=
  ⟨fun h1 => shorten_eq_big _ h1, fun h2 h1 => shorten_eq_mid _ h1 h2,
    fun h2 h1 => shorten_eq_kilo _ h1 h2, fun h1 => shorten_eq_small _ h1,
    shorten_val_999, shorten_val_1000, shorten_val_999999, shorten_val_1500000,
    shorten_val_1500000000⟩

/-- Witness for the amended C2 at input 1500000 (the M branch). -/
theorem shorten_branches_amended_witness :
    shortenValueWithSuffix 1500000 =
      renderTrim (roundHalfAwayFromZero ((1500000 : ℚ) / 1000000 * 100)) ++ "M" :=
  (shorten_branches_amended 1500000 (by norm_num)).2.1 (by norm_num) (by norm_num)

lemma str_empty_append (s : String) : "" ++ s = s := rfl

/-- C6: nonzero values below one millionth in absolute value format as the
sentinel "< 0.000001" (with the symbol appended when requested), zero
formats as "0.00" and never as the sentinel, and the two pinned examples
evaluate as the specification states. -/
theorem format_sentinel_and_zero (v : ℚ) (t : Token) (a : Bool) :
    (v ≠ 0 → |v| < 1/1000000 →
      formatTokensToReadableValue v t a =
        "< 0.000001" ++ (if a then " " ++ t.symbol else "")) ∧
    formatTokensToReadableValue 0 t a = "0.00" ++ (if a then " " ++ t.symbol else "") ∧
    formatTokensToReadableValue 0 t a ≠ "< 0.000001" ++ (if a then " " ++ t.symbol else "") ∧
    formatTokensToReadableValue (1/10000000) ⟨"ETH", 18⟩ true = "< 0.000001 ETH" ∧
    formatTokensToReadableValue 0 ⟨"ETH", 18⟩ true = "0.00 ETH" := by
  have hzero : ∀ (u : Token) (b : Bool),
      formatTokensToReadableValue 0 u b = "0.00" ++ (if b then " " ++ u.symbol else "") := by
    intro u b
    rw [formatTokensToReadableValue, if_neg (by simp), if_neg (lt_irrefl (0 : ℚ)),
      abs_zero, shorten_val_zero, str_empty_append]
  refine ⟨?_, hzero t a, ?_, ?_, ?_⟩
  · intro hne hlt
    rw [formatTokensToReadableValue, if_pos ⟨hlt, hne⟩]
  · rw [hzero t a]
    intro heq
    have hlen := congrArg String.length heq
    rw [String.length_append, String.length_append,
      show ("0.00" : String).length = 4 from rfl,
      show ("< 0.000001" : String).length = 10 from rfl] at hlen
    omega
  · rw [formatTokensToReadableValue,
      if_pos ⟨by rw [abs_of_pos (show (0 : ℚ) < 1/10000000 by norm_num)]; norm_num,
        by norm_num⟩]
    rfl
  · rw [hzero ⟨"ETH", 18⟩ true]
    rfl

/-- Witness for C6 at the pinned tiny positive input. -/
theorem format_sentinel_and_zero_witness :
    formatTokensToReadableValue (1/10000000) ⟨"ETH", 18⟩ true =
      "< 0.000001" ++ (if true then " " ++ (Token.mk "ETH" 18).symbol else "") :=
  (format_sentinel_and_zero (1/10000000) ⟨"ETH", 18⟩ true).1 (by norm_num)
    (by rw [abs_of_pos (show (0 : ℚ) < 1/10000000 by norm_num)]; norm_num)

/-- C7: a negative value of displayable magnitude formats as a literal minus
sign followed by the suffix-formatted absolute value, and -5 with no symbol
formats as "-5.00". -/
theorem format_negative_sign (v : ℚ) (t : Token) (a : Bool) :
    (v < 0 → 1/1000000 ≤ |v| →
      formatTokensToReadableValue v t a =
        ("-" ++ shortenValueWithSuffix |v|) ++ (if a then " " ++ t.symbol else "")) ∧
    formatTokensToReadableValue (-5) ⟨"USDC", 6⟩ false = "-5.00" := by
  constructor
  · intro hv hge
    rw [formatTokensToReadableValue, if_neg (fun hc => absurd hc.1 (not_lt.mpr hge)),
      if_pos hv]
  · have habs : |(-5 : ℚ)| = 5 := by
      rw [abs_of_neg (show (-5 : ℚ) < 0 by norm_num)]
      norm_num
    rw [formatTokensToReadableValue, habs, if_neg (by norm_num),
      if_pos (show (-5 : ℚ) < 0 by norm_num), shorten_val_5]
    rfl

/-- Witness for C7 at input -5 with the symbol suppressed. -/
theorem format_negative_sign_witness :
    formatTokensToReadableValue (-5) ⟨"USDC", 6⟩ false =
      ("-" ++ shortenValueWithSuffix |(-5 : ℚ)|) ++
        (if false then " " ++ (Token.mk "USDC" 6).symbol else "") :=
  (format_negative_sign (-5) ⟨"USDC", 6⟩ false).1 (by norm_num)
    (by rw [abs_of_neg (show (-5 : ℚ) < 0 by norm_num)]; norm_num)

/-- C10: a negative value whose absolute value is nonzero and below one
millionth takes the sentinel branch before the minus-sign prefix is applied,
so its sign is not visible in the output. -/
theorem format_tiny_negative_sentinel (v : ℚ) (t : Token) (a : Bool) :
    (v < 0 → |v| < 1/1000000 →
      formatTokensToReadableValue v t a =
        "< 0.000001" ++ (if a then " " ++ t.symbol else "")) ∧
    formatTokensToReadableValue (-(1/10000000)) ⟨"ETH", 18⟩ true = "< 0.000001 ETH" := by
  constructor
  · intro hv hlt
    rw [formatTokensToReadableValue, if_pos ⟨hlt, ne_of_lt hv⟩]
  · rw [formatTokensToReadableValue,
      if_pos ⟨by rw [abs_neg, abs_of_pos (show (0 : ℚ) < 1/10000000 by norm_num)]; norm_num,
        by norm_num⟩]
    rfl

/-- Witness for C10 at the tiny negative input. -/
theorem format_tiny_negative_sentinel_witness :
    formatTokensToReadableValue (-(1/10000000)) ⟨"ETH", 18⟩ true =
      "< 0.000001" ++ (if true then " " ++ (Token.mk "ETH" 18).symbol else "") :=
  (format_tiny_negative_sentinel (-(1/10000000)) ⟨"ETH", 18⟩ true).1 (by norm_num)
    (by rw [abs_neg, abs_of_pos (show (0 : ℚ) < 1/10000000 by norm_num)]; norm_num)

lemma natDigitsAux_ne_nil (n : ℕ) (h : n ≠ 0) : natDigitsAux n n ≠ [] := by
  cases n with
  | zero => exact absurd rfl h
  | succ k => simp [natDigitsAux]

lemma groupRev_ne_nil (l : List Char) (k : ℕ) (h : l ≠ []) : groupRev l k ≠ [] := by
  match l with
  | [] => exact absurd rfl h
  | [c] => simp [groupRev]
  | c :: c2 :: rest =>
    rw [groupRev]
    split <;> simp

lemma natGrouped_length_pos (n : ℕ) : 0 < (natGrouped n).length := by
  rw [natGrouped]
  split
  · decide
  · rename_i h
    have h1 : (natDigitsAux n n).map Nat.digitChar ≠ [] := by
      intro hc
      exact natDigitsAux_ne_nil n h (List.map_eq_nil_iff.mp hc)
    have h2 := groupRev_ne_nil _ 0 h1
    show 0 < ((groupRev ((natDigitsAux n n).map Nat.digitChar) 0).reverse).length
    rw [List.length_reverse]
    exact List.length_pos.mpr h2

lemma pad2_length (f : ℕ) : (pad2 f).length = 2 := rfl

lemma renderFixed2_length_pos (n : ℤ) : 0 < (renderFixed2 n).length := by
  rw [renderFixed2, String.length_append, String.length_append, String.length_append,
    pad2_length]
  omega

lemma renderTrim_length_pos (n : ℤ) : 0 < (renderTrim n).length := by
  have hg := natGrouped_length_pos (n.natAbs / 100)
  rw [renderTrim]
  split
  · rw [String.length_append]
    omega
  · split
    · rw [String.length_append, String.length_append, String.length_append]
      omega
    · rw [String.length_append, String.length_append, String.length_append]
      omega

lemma toFormat2_length_pos (u : ℚ) : 0 < (toFormat2 u).length :=
  renderFixed2_length_pos _

lemma toFormatTrimmed_length_pos (u : ℚ) : 0 < (toFormatTrimmed u).length :=
  renderTrim_length_pos _

lemma shorten_length_pos (q : ℚ) : 0 < (shortenValueWithSuffix q).length := by
  rw [shortenValueWithSuffix]
  split
  · rw [String.length_append]
    have := toFormatTrimmed_length_pos (dp 2 (q / 1000000000))
    omega
  · split
    · rw [String.length_append]
      have := toFormatTrimmed_length_pos (dp 2 (q / 1000000))
      omega
    · split
      · rw [String.length_append]
        have := toFormatTrimmed_length_pos (dp 2 (q / 1000))
        omega
      · exact toFormat2_length_pos q

lemma str_ne_empty_of_length_pos (s : String) (h : 0 < s.length) : s ≠ "" := by
  intro he
  rw [he] at h
  exact absurd h (by decide)

/-- C8: both formatters are total over the documented domain: they always
return a nonempty string (the embedding is a total function, mirroring the
absence of any throwing path in the source), including at the exact
boundary values 0, one thousand, one million and one billion. -/
theorem format_total_boundaries (v : ℚ) (t : Token) (a : Bool) (hv : 0 ≤ v) :
    shortenValueWithSuffix v ≠ "" ∧
    formatTokensToReadableValue v t a ≠ "" ∧
    shortenValueWithSuffix 0 = "0.00" ∧
    shortenValueWithSuffix 1000 = "1K" ∧
    shortenValueWithSuffix 1000000 = "1M" ∧
    shortenValueWithSuffix 1000000000 = "1B" := by
  refine ⟨str_ne_empty_of_length_pos _ (shorten_length_pos v), ?_, shorten_val_zero,
    shorten_val_1000, shorten_val_1000000, shorten_val_1000000000⟩
  refine str_ne_empty_of_length_pos _ ?_
  rw [formatTokensToReadableValue]
  split
  · rw [String.length_append, show ("< 0.000001" : String).length = 10 from rfl]
    omega
  · rw [String.length_append, String.length_append]
    have := shorten_length_pos |v|
    omega

/-- Witness for C8 at the boundary value 0. -/
theorem format_total_boundaries_witness :
    shortenValueWithSuffix 0 ≠ "" ∧ formatTokensToReadableValue 0 ⟨"ETH", 18⟩ true ≠ "" :=
  ⟨(format_total_boundaries 0 ⟨"ETH", 18⟩ true (by norm_num)).1,
    (format_total_boundaries 0 ⟨"ETH", 18⟩ true (by norm_num)).2.1⟩
